import Mathlib

/-!
Verification of the résumé analysis engine of the Code-Elo backend
(`src/scrapers/resume_parser.py`).

The Python module works by applying `re.search` / `re.findall` with fixed
patterns to the document text.  We embed the fragment of Python's regex
language actually used by the module (literal characters, character
classes, ordered alternation, greedy star/plus/option, bounded repetition
and the zero-width word-boundary assertion) as a small executable matcher
with Python's leftmost, alternation-in-order, greedy backtracking
semantics, and translate every pattern of the source literally.
Text is represented as `List Char`; `text.lower()` is `lower`.
-/

/-- Python `\s` (ASCII range, the inputs considered are ASCII). -/
def isSpaceC (c : Char) : Bool :=
  c = ' ' || c = '\t' || c = '\n' || c = '\r' || c = '\x0b' || c = '\x0c'

/-- Python `\d`. -/
def isDigitC (c : Char) : Bool := '0' ≤ c && c ≤ '9'

def isLowerAZ (c : Char) : Bool := 'a' ≤ c && c ≤ 'z'

def isUpperAZ (c : Char) : Bool := 'A' ≤ c && c ≤ 'Z'

def isAlphaC (c : Char) : Bool := isLowerAZ c || isUpperAZ c

def isAlnumC (c : Char) : Bool := isAlphaC c || isDigitC c

/-- Python `\w` (ASCII). -/
def wordCh (c : Char) : Bool := isAlnumC c || c = '_'

/-- `str.lower()` on a single ASCII character. -/
def lowC (c : Char) : Char := if isUpperAZ c then Char.ofNat (c.toNat + 32) else c

/-- `text.lower()`. -/
def lower (t : List Char) : List Char := t.map lowC

/-- String literal to character list. -/
def str (s : String) : List Char := s.data

/-- The regex fragment used by `resume_parser.py`. -/
inductive RE where
  | eps : RE
  | cls (p : Char → Bool) : RE
  | wb : RE
  | cat (a b : RE) : RE
  | alt (a b : RE) : RE
  | star (a : RE) : RE

/-- Word-boundary test (`\b`) at offset `i` of `s`. -/
def atWB (s : List Char) (i : Nat) : Bool :=
  let before := match i with
    | 0 => false
    | k + 1 => match s.get? k with
      | some c => wordCh c
      | none => false
  let after := match s.get? i with
    | some c => wordCh c
    | none => false
  before != after

/-- Greedy iteration of a one-step match function: all end offsets of
zero or more progress-making steps, longest-first (Python's greedy `*`). -/
def starRun (f : Nat → List Nat) : Nat → Nat → List Nat
  | 0, i => [i]
  | n + 1, i =>
    (((f i).filter (fun j => i < j)).flatMap (fun j => starRun f n j)) ++ [i]

/-- All end offsets of a match of `r` in `s` starting at offset `i`, in
Python's backtracking priority order (first element = the match the
Python engine commits to). -/
def mrun (s : List Char) : RE → Nat → List Nat
  | .eps, i => [i]
  | .cls p, i =>
    match s.get? i with
    | some c => if p c then [i + 1] else []
    | none => []
  | .wb, i => if atWB s i then [i] else []
  | .alt a b, i => mrun s a i ++ mrun s b i
  | .cat a b, i => (mrun s a i).flatMap (fun j => mrun s b j)
  | .star a, i => starRun (fun j => mrun s a j) (s.length + 1 - i) i

/-- Scan offsets `i, i+1, …` (at most `fuel` of them) for the first
offset where `r` matches; returns `(start, end)` of the committed match.
This is `re.search`. -/
def searchAux (r : RE) (s : List Char) : Nat → Nat → Option (Nat × Nat)
  | _, 0 => none
  | i, fuel + 1 =>
    match mrun s r i with
    | j :: _ => some (i, j)
    | [] => searchAux r s (i + 1) fuel

/-- `re.search(r, s)`: span of the leftmost match. -/
def research (r : RE) (s : List Char) : Option (Nat × Nat) :=
  searchAux r s 0 (s.length + 1)

/-- Non-overlapping match count, scanning left to right. -/
def faAux (r : RE) (s : List Char) : Nat → Nat → Nat
  | _, 0 => 0
  | i, fuel + 1 =>
    match searchAux r s i (s.length + 1 - i) with
    | none => 0
    | some (p, j) => 1 + faAux r s (if p < j then j else p + 1) fuel

/-- `len(re.findall(r, s))`. -/
def faCount (r : RE) (s : List Char) : Nat := faAux r s 0 (s.length + 1)

/-! Pattern-building helpers. -/

def chrRE (c : Char) : RE := .cls (fun x => x = c)

def anyOf (cs : List Char) : RE := .cls (fun x => cs.contains x)

/-- Literal word (`re.escape`d literal in the source). -/
def lit (cs : List Char) : RE := cs.foldr (fun c r => .cat (chrRE c) r) .eps

def seqRE (rs : List RE) : RE := rs.foldr .cat .eps

/-- Ordered alternation `(a|b|…)`. -/
def altRE : List RE → RE
  | [] => .cls (fun _ => false)
  | [r] => r
  | r :: rs => .alt r (altRE rs)

/-- Greedy option `r?`. -/
def opt (r : RE) : RE := .alt r .eps

/-- Greedy `r+`. -/
def plus (r : RE) : RE := .cat r (.star r)

/-- `\s*`. -/
def sstar : RE := .star (.cls isSpaceC)

/-- `\s+`. -/
def splus : RE := plus (.cls isSpaceC)

/-- Python slice `l[a:b]` (half-open, clamped). -/
def pySlice (l : List Char) (a b : Nat) : List Char := (l.drop a).take (b - a)

/-! ## Section locator (`find_section`) -/

/-- Header pattern `r'\n\s*' + re.escape(header) + r'\s*[:\n]'`. -/
def headerRE (h : List Char) : RE :=
  .cat (chrRE '\n') (seqRE [sstar, lit h, sstar, anyOf [':', '\n']])

/-- Word with optional plural `s?`. -/
def wordOptS (w : String) : RE := .cat (lit (str w)) (opt (chrRE 's'))

/-- The `next_section_pattern` of `find_section`. -/
def nextSectionRE : RE :=
  seqRE [chrRE '\n', sstar,
    altRE [lit (str "experience"),
      seqRE [lit (str "work"), splus, lit (str "experience")],
      wordOptS "internship",
      seqRE [lit (str "professional"), splus, lit (str "experience")],
      wordOptS "project",
      lit (str "education"),
      seqRE [lit (str "academic"), splus, lit (str "background")],
      wordOptS "certification",
      wordOptS "certificate",
      wordOptS "achievement",
      wordOptS "award",
      wordOptS "honor",
      seqRE [lit (str "technical"), splus, wordOptS "skill"],
      wordOptS "skill",
      lit (str "extracurricular"),
      lit (str "activities"),
      lit (str "leadership"),
      seqRE [wordOptS "position", splus, lit (str "of"), splus,
        lit (str "responsibility")],
      lit (str "training"),
      wordOptS "course",
      wordOptS "publication",
      wordOptS "reference"],
    sstar, anyOf [':', '\n']]

/-- End offset of a section that starts at `s`: offset of the next
recognized section header, or a 3000-character budget. -/
def sectionEnd (tl : List Char) (s : Nat) : Nat :=
  match research nextSectionRE (tl.drop s) with
  | some (p, _) => s + p
  | none => s + 3000

/-- `find_section(text, section_headers)`; `none` models the `(-1, -1)`
"not found" sentinel of the source. -/
def find_section (text : List Char) : List (List Char) → Option (Nat × Nat)
  | [] => none
  | h :: rest =>
    match research (headerRE h) (lower text) with
    | some (_, e) => some (e, sectionEnd (lower text) e)
    | none => find_section text rest

/-! ## Signal aggregation (inlined in the source counters) -/

/-- `valid_indicators.sort(); valid_indicators[len(valid_indicators)//2]`
guarded by `if valid_indicators:` — median of the nonzero signals. -/
def sortedNonzero (l : List Nat) : List Nat :=
  List.insertionSort (· ≤ ·) (l.filter (fun i => 0 < i))

def medianOfNonzero (l : List Nat) : Option Nat :=
  match sortedNonzero l with
  | [] => none
  | v => some (v.getD (v.length / 2) 0)

/-- Python `max` over a list (errors on `[]`, hence `Option`). -/
def pymax : List Nat → Option Nat
  | [] => none
  | x :: xs => some (xs.foldl Nat.max x)

/-- Sum of `len(re.findall(p, s))` over a pattern list. -/
def sumFA (ps : List RE) (s : List Char) : Nat :=
  (ps.map (fun p => faCount p s)).sum

/-! ## `count_internships` -/

def exp_headers : List (List Char) :=
  [str "experience", str "work experience", str "professional experience",
   str "internships", str "internship", str "work history", str "employment"]

def wordsAlt (ws : List String) : RE := altRE (ws.map (fun w => lit (str w)))

/-- `\b(w1|w2|…)\b`. -/
def wbAlt (ws : List String) : RE := seqRE [.wb, wordsAlt ws, .wb]

/-- `\bw\b`. -/
def wbWord (w : String) : RE := wbAlt [w]

def d4 : RE :=
  seqRE [.cls isDigitC, .cls isDigitC, .cls isDigitC, .cls isDigitC]

/-- Date-range pattern of strategy 1. -/
def dateRE : RE :=
  seqRE [wordsAlt ["jan", "feb", "mar", "apr", "may", "jun", "jul", "aug",
      "sep", "oct", "nov", "dec"],
    .star (.cls isLowerAZ),
    .star (.cls (fun c => isSpaceC c || c = ',' || c = '.' || c = '-')),
    d4, sstar, anyOf ['-', '–', '—', 't', 'o'], sstar,
    wordsAlt ["jan", "feb", "mar", "apr", "may", "jun", "jul", "aug",
      "sep", "oct", "nov", "dec", "present", "current", "ongoing"]]

/-- Organization-name pattern of strategy 2 (run on the original-case
section text). -/
def companyRE : RE :=
  seqRE [chrRE '\n', sstar, .cls isUpperAZ,
    plus (.cls (fun c => isAlphaC c || isSpaceC c || c = '&' || c = ',' ||
      c = '.' || c = '-')),
    altRE [seqRE [splus, anyOf ['-', '–', '|'], splus],
      seqRE [sstar, chrRE '\n', sstar]],
    altRE [seqRE [.cls isUpperAZ, plus (.cls isLowerAZ),
        opt (seqRE [chrRE ',', sstar, .cls isUpperAZ, .cls isUpperAZ])],
      d4]]

def roleRE : RE :=
  wbAlt ["intern", "developer", "engineer", "analyst", "designer",
    "consultant", "associate", "trainee", "assistant", "specialist",
    "coordinator", "lead", "manager", "researcher", "programmer",
    "scientist", "architect", "administrator", "technician"]

def bulletRE : RE :=
  seqRE [chrRE '\n', sstar,
    anyOf ['•', '●', '▪', '▸', '►', '→', '⦿', '◆', '■', '-'], splus]

def internFallbackRE : RE :=
  seqRE [.wb,
    altRE [lit (str "intern"), lit (str "internship"),
      seqRE [lit (str "co"), opt (chrRE '-'), lit (str "op")],
      lit (str "trainee")],
    .wb]

/-- The four indicators of `count_internships`. -/
def internSignals (sec secOrig : List Char) : List Nat :=
  [faCount dateRE sec, faCount companyRE secOrig, faCount roleRE sec,
   faCount bulletRE sec / 4]

def count_internships (text : List Char) : Nat :=
  match find_section text exp_headers with
  | some (s, e) =>
    match medianOfNonzero
        (internSignals (pySlice (lower text) s e) (pySlice text s e)) with
    | some c => min c 5
    | none => min (max (faCount internFallbackRE (lower text)) 0) 5
  | none => min (max (faCount internFallbackRE (lower text)) 0) 5

/-! ## `count_projects` -/

def project_headers : List (List Char) :=
  [str "projects", str "personal projects", str "academic projects",
   str "key projects", str "technical projects", str "major projects",
   str "project work", str "project experience"]

/-- Title pattern (run on the original-case section text). -/
def titleRE : RE :=
  seqRE [chrRE '\n', sstar, .cls isUpperAZ,
    plus (.cls (fun c => isAlnumC c || isSpaceC c)),
    sstar, anyOf ['|', '–', '—', '-'], sstar,
    plus (.cls (fun c => isAlphaC c || c = ',' || isSpaceC c || c = '.' ||
      c = '+' || c = '#'))]

def actionRE : RE :=
  wbAlt ["developed", "built", "created", "designed", "implemented",
    "engineered", "constructed", "programmed", "coded", "architected",
    "deployed", "launched", "established", "integrated", "devised"]

def techRE : RE :=
  altRE [seqRE [lit (str "web"), splus, lit (str "application")],
    seqRE [lit (str "mobile"), splus, lit (str "app")],
    lit (str "system"), lit (str "platform"), lit (str "api"),
    lit (str "website"), lit (str "software"), lit (str "tool"),
    lit (str "dashboard"), lit (str "interface"), lit (str "database"),
    lit (str "algorithm"), lit (str "model"), lit (str "framework")]

def githubRE : RE :=
  altRE [lit (str "github.com"), lit (str "gitlab.com"),
    lit (str "bitbucket.org")]

/-- `(?:\w+\s+)` of the global project fallback. -/
def wordSpace : RE := seqRE [plus (.cls wordCh), splus]

def projFallbackRE : RE :=
  seqRE [wordsAlt ["developed", "built", "created"],
    splus, opt (wordsAlt ["a", "an", "the"]), sstar,
    opt (seqRE [wordSpace, opt (seqRE [wordSpace, opt wordSpace])]),
    wordsAlt ["application", "system", "platform", "website", "tool"]]

/-- The five indicators of `count_projects`. -/
def projSignals (sec secOrig : List Char) : List Nat :=
  [faCount titleRE secOrig, faCount actionRE sec / 2, faCount techRE sec / 2,
   faCount bulletRE sec / 3, faCount githubRE sec]

def count_projects (text : List Char) : Nat :=
  match find_section text project_headers with
  | some (s, e) =>
    match medianOfNonzero
        (projSignals (pySlice (lower text) s e) (pySlice text s e)) with
    | some c => min (max c 1) 8
    | none => min (max (faCount projFallbackRE (lower text)) 0) 8
  | none => min (max (faCount projFallbackRE (lower text)) 0) 8

/-! ## `count_certifications` -/

def cert_headers : List (List Char) :=
  [str "certifications", str "certification", str "certificates",
   str "licenses and certifications", str "professional certifications",
   str "courses", str "online courses", str "training",
   str "courses and certifications"]

def platformRE : RE :=
  wbAlt ["coursera", "udemy", "edx", "linkedin learning", "pluralsight",
    "udacity", "codecademy", "freecodecamp", "khan academy",
    "microsoft", "google", "amazon", "ibm", "oracle", "cisco",
    "aws", "azure", "comptia", "nptel", "swayam"]

def certKwRE : RE :=
  wbAlt ["certified", "certification", "certificate", "credential",
    "diploma", "course", "training", "completion"]

def yearRE : RE :=
  seqRE [.wb,
    altRE [seqRE [lit (str "20"), .cls isDigitC, .cls isDigitC],
      seqRE [lit (str "19"), .cls isDigitC, .cls isDigitC]],
    .wb]

def commonCertRE : RE :=
  altRE [seqRE [lit (str "aws"), splus, lit (str "certified")],
    seqRE [lit (str "google"), splus, lit (str "certified")],
    seqRE [lit (str "microsoft"), splus, lit (str "certified")],
    seqRE [lit (str "cisco"), splus, lit (str "certified")],
    lit (str "python"), lit (str "java"),
    seqRE [lit (str "machine"), splus, lit (str "learning")],
    seqRE [lit (str "data"), splus, lit (str "science")],
    seqRE [lit (str "web"), splus, lit (str "development")],
    seqRE [lit (str "full"), splus, lit (str "stack")]]

def certFallbackRE : RE :=
  seqRE [.wb,
    altRE [lit (str "coursera"), lit (str "udemy"), lit (str "nptel"),
      seqRE [lit (str "aws"), splus, lit (str "certified")],
      seqRE [lit (str "google"), splus, lit (str "certified")]],
    .wb]

/-- The five indicators of `count_certifications`. -/
def certSignals (sec : List Char) : List Nat :=
  [faCount bulletRE sec, faCount platformRE sec, faCount certKwRE sec / 2,
   faCount yearRE sec, faCount commonCertRE sec]

def count_certifications (text : List Char) : Nat :=
  match find_section text cert_headers with
  | some (s, e) =>
    match pymax (certSignals (pySlice (lower text) s e)) with
    | some c => min c 10
    | none => min (max (faCount certFallbackRE (lower text)) 0) 10
  | none => min (max (faCount certFallbackRE (lower text)) 0) 10

/-! ## `count_skills` -/

/-- The flattened skill database (category order of the source). -/
def all_skills : List (List Char) :=
  [str "python", str "java", str "javascript", str "typescript",
   str "c++", str "cpp", str "c#", str "c", str "go", str "golang",
   str "rust", str "kotlin", str "swift", str "ruby", str "php",
   str "scala", str "r", str "matlab", str "perl", str "haskell",
   str "dart", str "shell", str "bash", str "powershell",
   str "objective-c", str "assembly", str "sql", str "pl/sql",
   str "html", str "css", str "html5", str "css3", str "react",
   str "reactjs", str "angular", str "angularjs", str "vue",
   str "vuejs", str "svelte", str "next.js", str "nextjs", str "nuxt",
   str "gatsby", str "redux", str "jquery", str "bootstrap",
   str "tailwind", str "material-ui", str "mui", str "sass", str "scss",
   str "less", str "webpack", str "vite",
   str "node.js", str "nodejs", str "node", str "express",
   str "expressjs", str "django", str "flask", str "fastapi",
   str "spring boot", str "spring", str "asp.net", str "dotnet",
   str ".net", str "laravel", str "rails", str "ruby on rails",
   str "graphql", str "rest api", str "restful", str "microservices",
   str "serverless", str "websocket",
   str "android", str "ios", str "react native", str "flutter",
   str "kotlin", str "swift", str "swiftui", str "xamarin", str "ionic",
   str "cordova",
   str "mysql", str "postgresql", str "mongodb", str "redis",
   str "sqlite", str "oracle", str "sql server", str "mssql",
   str "cassandra", str "dynamodb", str "firebase", str "firestore",
   str "elasticsearch", str "neo4j", str "couchdb", str "mariadb",
   str "aws", str "azure", str "gcp", str "google cloud", str "docker",
   str "kubernetes", str "k8s", str "jenkins", str "terraform",
   str "ansible", str "ci/cd", str "github actions", str "gitlab ci",
   str "circleci", str "travis ci", str "heroku", str "netlify",
   str "vercel",
   str "machine learning", str "deep learning", str "tensorflow",
   str "pytorch", str "keras", str "scikit-learn", str "sklearn",
   str "pandas", str "numpy", str "opencv", str "nlp",
   str "computer vision", str "neural networks", str "transformers",
   str "bert", str "gpt", str "cnn", str "rnn", str "lstm", str "gan",
   str "xgboost",
   str "data analysis", str "data science", str "data visualization",
   str "tableau", str "power bi", str "matplotlib", str "seaborn",
   str "plotly", str "jupyter", str "apache spark", str "hadoop",
   str "kafka", str "airflow", str "etl",
   str "git", str "github", str "gitlab", str "bitbucket", str "svn",
   str "vs code", str "visual studio", str "intellij", str "pycharm",
   str "eclipse", str "android studio", str "xcode", str "postman",
   str "insomnia", str "jira", str "confluence", str "trello",
   str "slack", str "figma", str "adobe xd",
   str "data structures", str "algorithms", str "oop", str "oops",
   str "design patterns", str "system design", str "distributed systems",
   str "multithreading", str "networking", str "operating systems",
   str "dbms", str "agile", str "scrum", str "tdd", str "testing",
   str "unit testing", str "api development"]

/-- Skill pattern: `\b` + literal skill with spaces as `\s+` + `\b`
(the source's escaping makes every character literal). -/
def skillBody (cs : List Char) : RE :=
  cs.foldr (fun c r => .cat (if c = ' ' then splus else chrRE c) r) .eps

def skillRE (sk : List Char) : RE := seqRE [.wb, skillBody sk, .wb]

def skill_headers : List (List Char) :=
  [str "skills", str "technical skills", str "core competencies",
   str "technologies"]

def sepRE : RE := anyOf [',', ';']

def count_skills (text : List Char) : Nat :=
  let tl := lower text
  let found := (all_skills.eraseDups).countP
    (fun sk => (research (skillRE sk) tl).isSome)
  let bonus :=
    match find_section text skill_headers with
    | some (s, e) =>
      let seps := faCount sepRE (pySlice tl s e)
      if found < seps then seps - found else 0
    | none => 0
  min (found + bonus / 2) 30

/-! ## `count_achievements` -/

def achievement_headers : List (List Char) :=
  [str "achievements", str "achievement", str "awards", str "honors",
   str "accomplishments", str "awards and honors", str "recognitions",
   str "scholarships"]

def extra_headers : List (List Char) :=
  [str "extracurricular", str "activities", str "leadership",
   str "positions of responsibility"]

def cpPatterns : List RE :=
  [wbWord "gate", wbWord "leetcode", wbWord "codeforces",
   wbWord "codechef", wbWord "hackerrank", wbWord "hackerearth",
   wbWord "topcoder", wbWord "atcoder", wbWord "gfg",
   wbWord "geeksforgeeks",
   seqRE [.wb, lit (str "solved"), splus, plus (.cls isDigitC),
     opt (chrRE '+'), splus, altRE [wordOptS "problem", wordOptS "question"]],
   seqRE [plus (.cls isDigitC), sstar, opt (chrRE '-'), sstar,
     lit (str "star"), .wb],
   seqRE [.wb, lit (str "rating"), sstar, opt (chrRE ':'), sstar,
     .cls isDigitC, .cls isDigitC, .cls isDigitC, opt (.cls isDigitC), .wb],
   seqRE [.wb, lit (str "rank"), sstar, opt (chrRE ':'), sstar,
     plus (.cls isDigitC)],
   seqRE [.wb, lit (str "air"), splus, plus (.cls isDigitC)],
   seqRE [.wb, lit (str "top"), splus, plus (.cls isDigitC),
     opt (chrRE '%')]]

def awardPatterns : List RE :=
  [wbWord "scholarship", wbWord "fellowship", wbWord "award",
   wbWord "winner", wbWord "finalist", wbWord "champion", wbWord "merit",
   seqRE [.wb, lit (str "dean"), opt (chrRE (Char.ofNat 39)), chrRE 's',
     splus, lit (str "list"), .wb],
   seqRE [.wb, lit (str "honor"), splus, lit (str "roll"), .wb],
   seqRE [.wb, wordsAlt ["first", "1st", "second", "2nd", "third", "3rd"],
     splus, wordsAlt ["place", "position", "prize", "rank"], .wb],
   seqRE [.wb, lit (str "gold"), splus, lit (str "medal"), .wb],
   seqRE [.wb, lit (str "silver"), splus, lit (str "medal"), .wb],
   seqRE [.wb, lit (str "bronze"), splus, lit (str "medal"), .wb]]

def competitionPatterns : List RE :=
  [wbWord "hackathon", wbWord "competition", wbWord "contest",
   seqRE [.wb, lit (str "code"), sstar, lit (str "jam"), .wb],
   seqRE [.wb, lit (str "hash"), sstar, lit (str "code"), .wb],
   seqRE [.wb, lit (str "kick"), sstar, lit (str "start"), .wb]]

def leadershipPatterns : List RE :=
  [wbAlt ["president", "vice president", "vp", "secretary", "treasurer"],
   wbAlt ["head", "lead", "captain", "coordinator", "director", "chair"],
   wbAlt ["founder", "co-founder", "organizer", "mentor"],
   seqRE [.wb, lit (str "core"), splus,
     opt (seqRE [lit (str "team"), splus]), lit (str "member"), .wb],
   seqRE [.wb, lit (str "project"), splus, lit (str "lead"), .wb],
   wbAlt ["organized", "conducted", "led", "managed", "spearheaded"]]

/-- Same keyword set as the certification fallback but in the order the
achievements fallback writes it. -/
def certAsAchRE : RE :=
  seqRE [.wb,
    altRE [lit (str "nptel"), lit (str "coursera"), lit (str "udemy"),
      seqRE [lit (str "aws"), splus, lit (str "certified")],
      seqRE [lit (str "google"), splus, lit (str "certified")]],
    .wb]

/-- `total_count` after the achievements-section branch. -/
def achSectionCount (text : List Char) : Nat :=
  match find_section text achievement_headers with
  | some (s, e) =>
    let sec := pySlice (lower text) s e
    max (faCount bulletRE sec)
      (sumFA (cpPatterns ++ awardPatterns ++ competitionPatterns) sec)
  | none => 0

/-- `total_count` after the extracurricular/leadership branch. -/
def achBase (text : List Char) : Nat :=
  match find_section text extra_headers with
  | some (s, e) =>
    max (achSectionCount text)
      (sumFA leadershipPatterns (pySlice (lower text) s e) / 2)
  | none => achSectionCount text

def count_achievements (text : List Char) : Nat :=
  if achBase text = 0 then
    min (max (achBase text) (faCount certAsAchRE (lower text))) 8
  else
    min (achBase text) 8

/-! ## Score normalization (`calculate_resume_score`) -/

structure Metrics where
  internships : Nat
  projects : Nat
  certifications : Nat
  skills : Nat
  achievements : Nat
deriving DecidableEq, Repr

structure ScoreBreakdown where
  internships_score : ℚ
  projects_score : ℚ
  certifications_score : ℚ
  skills_score : ℚ
  achievements_score : ℚ
  total_score : ℚ
deriving DecidableEq, Repr

/-- Python `round` to an integer: round half to even. -/
def rhe (q : ℚ) : ℤ :=
  if q - ⌊q⌋ < 1 / 2 then ⌊q⌋
  else if 1 / 2 < q - ⌊q⌋ then ⌊q⌋ + 1
  else if ⌊q⌋ % 2 = 0 then ⌊q⌋ else ⌊q⌋ + 1

/-- Python `round(x, 2)`. -/
def pyRound2 (q : ℚ) : ℚ := (rhe (q * 100) : ℚ) / 100

/-- One weighted contribution:
`round(min(value, max_value) / max_value * weight, 2)`. -/
def contrib (v maxv w : Nat) : ℚ :=
  pyRound2 (((min v maxv : Nat) : ℚ) / (maxv : ℚ) * (w : ℚ))

/-- The source's base weights (sum to 100). -/
def weights : List Nat := [30, 25, 20, 15, 10]

/-- The source's `max_values` normalization ceilings. -/
def max_values : List Nat := [3, 4, 5, 20, 5]

/-- Sum of the five weighted contributions of `calculate_resume_score`. -/
def sumContrib (m : Metrics) : ℚ :=
  contrib m.internships 3 30 + contrib m.projects 4 25 +
  contrib m.certifications 5 20 + contrib m.skills 20 15 +
  contrib m.achievements 5 10

def calculate_resume_score (m : Metrics) : ScoreBreakdown :=
  { internships_score := contrib m.internships 3 30,
    projects_score := contrib m.projects 4 25,
    certifications_score := contrib m.certifications 5 20,
    skills_score := contrib m.skills 20 15,
    achievements_score := contrib m.achievements 5 10,
    total_score := pyRound2 ((rhe (sumContrib m) : ℤ) : ℚ) }

/-- Modelled from the spec (claim C1 wording): each metric capped at and
divided by its counter's own ceiling (5, 8, 10, 30, 8), multiplied by the
weight, rounded to 2 decimals.  This is the claim's reading, kept for
comparison against `calculate_resume_score`. -/
def claimC1Normalize (m : Metrics) : ScoreBreakdown :=
  { internships_score := contrib m.internships 5 30,
    projects_score := contrib m.projects 8 25,
    certifications_score := contrib m.certifications 10 20,
    skills_score := contrib m.skills 30 15,
    achievements_score := contrib m.achievements 8 10,
    total_score := pyRound2 ((rhe (contrib m.internships 5 30 +
      contrib m.projects 8 25 + contrib m.certifications 10 20 +
      contrib m.skills 30 15 + contrib m.achievements 8 10) : ℤ) : ℚ) }

/-- Modelled from the spec (claim C1, amended): same formula shape as the
claim but with the normalization ceilings the code actually uses
(3, 4, 5, 20, 5 from `max_values`). -/
def claimC1AmendedNormalize (m : Metrics) : ScoreBreakdown :=
  { internships_score := contrib m.internships 3 30,
    projects_score := contrib m.projects 4 25,
    certifications_score := contrib m.certifications 5 20,
    skills_score := contrib m.skills 20 15,
    achievements_score := contrib m.achievements 5 10,
    total_score := pyRound2 ((rhe (contrib m.internships 3 30 +
      contrib m.projects 4 25 + contrib m.certifications 5 20 +
      contrib m.skills 20 15 + contrib m.achievements 5 10) : ℤ) : ℚ) }

/-! ## `parse_resume` -/

/-- Python `str.strip()` (default whitespace). -/
def pyStrip (l : List Char) : List Char :=
  ((l.dropWhile isSpaceC).reverse.dropWhile isSpaceC).reverse

/-- The `try`-block of `parse_resume`, with each counter modelled as a
fallible computation (`none` = the counter raised): the surrounding
`except` turns any internal failure into a failure of the whole
analysis (`None` in the source). -/
def tryMetrics (ci cp cc cs ca : List Char → Option Nat)
    (text : List Char) : Option Metrics :=
  if pyStrip text = [] then none
  else do
    let i ← ci text
    let p ← cp text
    let c ← cc text
    let s ← cs text
    let a ← ca text
    pure ⟨i, p, c, s, a⟩

def parse_resume (text : List Char) : Option Metrics :=
  tryMetrics (fun t => some (count_internships t))
    (fun t => some (count_projects t))
    (fun t => some (count_certifications t))
    (fun t => some (count_skills t))
    (fun t => some (count_achievements t)) text

/-! ## Supporting lemmas -/

theorem count_internships_le (t : List Char) : count_internships t ≤ 5 := by
  unfold count_internships
  split
  · split
    · exact Nat.min_le_right _ _
    · exact Nat.min_le_right _ _
  · exact Nat.min_le_right _ _

theorem count_projects_le (t : List Char) : count_projects t ≤ 8 := by
  unfold count_projects
  split
  · split
    · exact Nat.min_le_right _ _
    · exact Nat.min_le_right _ _
  · exact Nat.min_le_right _ _

theorem count_certifications_le (t : List Char) :
    count_certifications t ≤ 10 := by
  unfold count_certifications
  split
  · split
    · exact Nat.min_le_right _ _
    · exact Nat.min_le_right _ _
  · exact Nat.min_le_right _ _

theorem count_skills_le (t : List Char) : count_skills t ≤ 30 := by
  unfold count_skills
  exact Nat.min_le_right _ _

theorem count_achievements_le (t : List Char) : count_achievements t ≤ 8 := by
  unfold count_achievements
  split
  · exact Nat.min_le_right _ _
  · exact Nat.min_le_right _ _

/-- If every signal is zero the nonzero filter is empty. -/
theorem filter_pos_eq_nil {l : List Nat} (h : ∀ x ∈ l, x = 0) :
    l.filter (fun i => 0 < i) = [] := by
  rw [List.filter_eq_nil_iff]
  intro a ha
  simp [h a ha]

theorem medianOfNonzero_eq_none {l : List Nat} (h : ∀ x ∈ l, x = 0) :
    medianOfNonzero l = none := by
  unfold medianOfNonzero sortedNonzero
  rw [filter_pos_eq_nil h]
  rfl

theorem sortedNonzero_ne_nil {l : List Nat} (h : ∃ x ∈ l, 0 < x) :
    sortedNonzero l ≠ [] := by
  obtain ⟨x, hx, hpos⟩ := h
  unfold sortedNonzero
  intro hnil
  have hperm := List.perm_insertionSort (· ≤ ·) (l.filter (fun i => 0 < i))
  rw [hnil] at hperm
  have : x ∈ l.filter (fun i => 0 < i) := by
    rw [List.mem_filter]
    exact ⟨hx, by simp [hpos]⟩
  rw [← hperm.mem_iff] at this
  simp at this

theorem medianOfNonzero_eq_some {l : List Nat} (h : ∃ x ∈ l, 0 < x) :
    medianOfNonzero l =
      some ((sortedNonzero l).getD ((sortedNonzero l).length / 2) 0) := by
  unfold medianOfNonzero
  cases hv : sortedNonzero l with
  | nil => exact absurd hv (sortedNonzero_ne_nil h)
  | cons a as => rfl

theorem seed_le_foldl_max (xs : List Nat) (x : Nat) :
    x ≤ xs.foldl Nat.max x := by
  induction xs generalizing x with
  | nil => exact Nat.le_refl x
  | cons z zs ih =>
    exact Nat.le_trans (Nat.le_max_left x z) (ih (Nat.max x z))

theorem mem_le_foldl_max (xs : List Nat) :
    ∀ x y : Nat, y ∈ xs → y ≤ xs.foldl Nat.max x := by
  induction xs with
  | nil => intro x y h; simp at h
  | cons z zs ih =>
    intro x y h
    rw [List.foldl_cons]
    rcases List.mem_cons.mp h with h1 | h1
    · subst h1
      exact Nat.le_trans (Nat.le_max_right x y) (seed_le_foldl_max zs _)
    · exact ih (Nat.max x z) y h1

theorem foldl_max_mem (xs : List Nat) :
    ∀ x : Nat, xs.foldl Nat.max x ∈ x :: xs := by
  induction xs with
  | nil => intro x; simp [List.foldl]
  | cons z zs ih =>
    intro x
    rw [List.foldl_cons]
    have h := ih (Nat.max x z)
    have hm : Nat.max x z = x ∨ Nat.max x z = z := by
      rcases Nat.le_total x z with hle | hle
      · exact Or.inr (Nat.max_eq_right hle)
      · exact Or.inl (Nat.max_eq_left hle)
    rcases List.mem_cons.mp h with h1 | h1
    · rcases hm with hm | hm <;> rw [h1, hm] <;> simp
    · simp [h1]

theorem pymax_spec {l : List Nat} {m : Nat} (h : pymax l = some m) :
    m ∈ l ∧ ∀ y ∈ l, y ≤ m := by
  cases l with
  | nil => simp [pymax] at h
  | cons x xs =>
    simp only [pymax, Option.some.injEq] at h
    subst h
    refine ⟨foldl_max_mem xs x, ?_⟩
    intro y hy
    rcases List.mem_cons.mp hy with h1 | h1
    · subst h1; exact seed_le_foldl_max xs y
    · exact mem_le_foldl_max xs x y h1

/-! Regex-engine lemmas. -/

theorem searchAux_eq_some {r : RE} {s : List Char} :
    ∀ {fuel i p e}, searchAux r s i fuel = some (p, e) →
      i ≤ p ∧ mrun s r p ≠ [] ∧ e ∈ mrun s r p ∧
        ∀ q, i ≤ q → q < p → mrun s r q = [] := by
  intro fuel
  induction fuel with
  | zero => intro i p e h; simp [searchAux] at h
  | succ n ih =>
    intro i p e h
    unfold searchAux at h
    cases hm : mrun s r i with
    | cons j js =>
      rw [hm] at h
      simp only [Option.some.injEq, Prod.mk.injEq] at h
      obtain ⟨hip, hej⟩ := h
      subst hip; subst hej
      exact ⟨Nat.le_refl _, by simp [hm], by simp [hm],
        fun q hq1 hq2 => absurd (Nat.lt_of_le_of_lt hq1 hq2) (Nat.lt_irrefl _)⟩
    | nil =>
      rw [hm] at h
      obtain ⟨h1, h2, h3, h4⟩ := ih h
      refine ⟨Nat.le_trans (Nat.le_succ i) h1, h2, h3, ?_⟩
      intro q hq1 hq2
      rcases Nat.eq_or_lt_of_le hq1 with he | hlt
      · rw [← he]; exact hm
      · exact h4 q hlt hq2

theorem research_spec {r : RE} {s : List Char} {p e : Nat}
    (h : research r s = some (p, e)) :
    e ∈ mrun s r p ∧ ∀ q, q < p → mrun s r q = [] := by
  obtain ⟨_, _, h3, h4⟩ := searchAux_eq_some h
  exact ⟨h3, fun q hq => h4 q (Nat.zero_le q) hq⟩

theorem starRun_ge {f : Nat → List Nat} :
    ∀ {n i j}, j ∈ starRun f n i → i ≤ j := by
  intro n
  induction n with
  | zero => intro i j h; simp [starRun] at h; omega
  | succ m ih =>
    intro i j h
    unfold starRun at h
    rcases List.mem_append.mp h with h1 | h1
    · obtain ⟨k, hk, hj⟩ := List.mem_flatMap.mp h1
      have hik : i < k := by
        have := List.of_mem_filter hk
        simpa using this
      exact Nat.le_trans (Nat.le_of_lt hik) (ih hj)
    · simp at h1; omega

theorem mrun_ge {s : List Char} :
    ∀ {r : RE} {i j : Nat}, j ∈ mrun s r i → i ≤ j := by
  intro r
  induction r with
  | eps => intro i j h; simp [mrun] at h; omega
  | cls p =>
    intro i j h
    unfold mrun at h
    cases hg : s.get? i with
    | none => rw [hg] at h; simp at h
    | some c =>
      rw [hg] at h
      by_cases hp : p c = true
      · simp [hp] at h; omega
      · simp [hp] at h
  | wb =>
    intro i j h
    unfold mrun at h
    split at h <;> simp at h
    omega
  | cat a b iha ihb =>
    intro i j h
    unfold mrun at h
    obtain ⟨k, hk, hj⟩ := List.mem_flatMap.mp h
    exact Nat.le_trans (iha hk) (ihb hj)
  | alt a b iha ihb =>
    intro i j h
    unfold mrun at h
    rcases List.mem_append.mp h with h1 | h1
    · exact iha h1
    · exact ihb h1
  | star a iha =>
    intro i j h
    unfold mrun at h
    exact starRun_ge h

/-- A match of a pattern that begins with a literal character reads that
character at its start offset and ends strictly later. -/
theorem mrun_cat_chr {s : List Char} {c : Char} {r : RE} {i j : Nat}
    (h : j ∈ mrun s (.cat (chrRE c) r) i) :
    s.get? i = some c ∧ i < j := by
  unfold mrun at h
  obtain ⟨k, hk, hj⟩ := List.mem_flatMap.mp h
  unfold chrRE mrun at hk
  cases hg : s.get? i with
  | none =>
    rw [hg] at hk
    simp at hk
  | some d =>
    rw [hg] at hk
    by_cases hd : d = c
    · rw [hd] at hk ⊢
      simp at hk
      subst hk
      exact ⟨rfl, Nat.lt_of_lt_of_le (Nat.lt_succ_self i) (mrun_ge hj)⟩
    · simp [hd] at hk

theorem toNat_ofNat_valid {n : Nat} (h : n.isValidChar) :
    (Char.ofNat n).toNat = n := by
  rw [Char.ofNat, dif_pos h]
  rfl

theorem lowC_eq_newline {c : Char} (h : lowC c = '\n') : c = '\n' := by
  unfold lowC at h
  split at h
  · exfalso
    rename_i hup
    have h1 : 65 ≤ c.toNat ∧ c.toNat ≤ 90 := by
      unfold isUpperAZ at hup
      simp only [Bool.and_eq_true, decide_eq_true_eq] at hup
      exact ⟨hup.1, hup.2⟩
    have hv : (c.toNat + 32).isValidChar := by
      unfold Nat.isValidChar
      omega
    have h2 : (Char.ofNat (c.toNat + 32)).toNat = c.toNat + 32 :=
      toNat_ofNat_valid hv
    rw [h] at h2
    have h3 : ('\n').toNat = 10 := rfl
    omega
  · exact h

theorem get_lower {t : List Char} {p : Nat} {c : Char}
    (h : (lower t).get? p = some c) :
    ∃ d, t.get? p = some d ∧ lowC d = c := by
  unfold lower at h
  rw [List.get?_map] at h
  cases hg : t.get? p with
  | none => rw [hg] at h; simp at h
  | some d =>
    rw [hg] at h
    simp at h
    exact ⟨d, rfl, h⟩

/-! Rounding and score-bound lemmas. -/

theorem rhe_nonneg {q : ℚ} (h : 0 ≤ q) : 0 ≤ rhe q := by
  unfold rhe
  have h0 : 0 ≤ ⌊q⌋ := Int.floor_nonneg.mpr h
  split_ifs <;> omega

theorem rhe_le {q : ℚ} {B : ℤ} (h : q ≤ (B : ℚ)) : rhe q ≤ B := by
  unfold rhe
  have hfl : ((⌊q⌋ : ℤ) : ℚ) ≤ q := Int.floor_le q
  have hBf : ⌊q⌋ ≤ B := by
    have h1 := Int.floor_mono h
    rwa [Int.floor_intCast] at h1
  split_ifs with h1 h2 h3
  · exact hBf
  · have h4 : ((⌊q⌋ : ℤ) : ℚ) + 1 / 2 < (B : ℚ) := by linarith
    have h5 : ((⌊q⌋ : ℤ) : ℚ) < (B : ℚ) := by linarith
    have h6 : ⌊q⌋ < B := by exact_mod_cast h5
    omega
  · exact hBf
  · have h4 : ((⌊q⌋ : ℤ) : ℚ) + 1 / 2 ≤ q := by
      push_neg at h1
      linarith
    have h5 : ((⌊q⌋ : ℤ) : ℚ) < (B : ℚ) := by linarith
    have h6 : ⌊q⌋ < B := by exact_mod_cast h5
    omega

theorem rhe_intCast (z : ℤ) : rhe (z : ℚ) = z := by
  unfold rhe
  rw [Int.floor_intCast]
  norm_num

theorem pyRound2_nonneg {q : ℚ} (h : 0 ≤ q) : 0 ≤ pyRound2 q := by
  unfold pyRound2
  have h1 : (0 : ℤ) ≤ rhe (q * 100) := rhe_nonneg (by positivity)
  have h2 : (0 : ℚ) ≤ ((rhe (q * 100) : ℤ) : ℚ) := by exact_mod_cast h1
  positivity

theorem pyRound2_le {q : ℚ} {B : ℤ} (h : q ≤ (B : ℚ)) :
    pyRound2 q ≤ (B : ℚ) := by
  unfold pyRound2
  have h1 : q * 100 ≤ ((B * 100 : ℤ) : ℚ) := by push_cast; linarith
  have h2 : rhe (q * 100) ≤ B * 100 := rhe_le h1
  rw [div_le_iff (by norm_num : (0 : ℚ) < 100)]
  calc ((rhe (q * 100) : ℤ) : ℚ) ≤ ((B * 100 : ℤ) : ℚ) := by exact_mod_cast h2
    _ = (B : ℚ) * 100 := by push_cast; ring

theorem pyRound2_intCast (z : ℤ) : pyRound2 (z : ℚ) = (z : ℚ) := by
  unfold pyRound2
  rw [show ((z : ℚ) * 100) = ((z * 100 : ℤ) : ℚ) by push_cast; ring,
    rhe_intCast]
  push_cast
  ring

theorem contrib_nonneg (v maxv w : Nat) : 0 ≤ contrib v maxv w := by
  unfold contrib
  apply pyRound2_nonneg
  positivity

theorem contrib_le (v maxv w : Nat) (hm : 0 < maxv) :
    contrib v maxv w ≤ (w : ℚ) := by
  unfold contrib
  have h1 : ((min v maxv : Nat) : ℚ) ≤ (maxv : ℚ) := by
    exact_mod_cast Nat.min_le_right v maxv
  have h2 : (0 : ℚ) < (maxv : ℚ) := by exact_mod_cast hm
  have h3 : ((min v maxv : Nat) : ℚ) / (maxv : ℚ) ≤ 1 :=
    (div_le_one h2).mpr h1
  have h4 : ((min v maxv : Nat) : ℚ) / (maxv : ℚ) * (w : ℚ) ≤ (w : ℚ) := by
    have h5 := mul_le_mul_of_nonneg_right h3
      (show (0 : ℚ) ≤ (w : ℚ) by positivity)
    linarith
  have hw : ((w : ℤ) : ℚ) = (w : ℚ) := by push_cast; ring
  have h6 : pyRound2 (((min v maxv : Nat) : ℚ) / (maxv : ℚ) * (w : ℚ)) ≤
      ((w : ℤ) : ℚ) := pyRound2_le (by rw [hw]; exact h4)
  calc pyRound2 (((min v maxv : Nat) : ℚ) / (maxv : ℚ) * (w : ℚ))
      ≤ ((w : ℤ) : ℚ) := h6
    _ = (w : ℚ) := hw

theorem sumContrib_bounds (m : Metrics) :
    0 ≤ sumContrib m ∧ sumContrib m ≤ 100 := by
  unfold sumContrib
  have h1 := contrib_nonneg m.internships 3 30
  have h2 := contrib_nonneg m.projects 4 25
  have h3 := contrib_nonneg m.certifications 5 20
  have h4 := contrib_nonneg m.skills 20 15
  have h5 := contrib_nonneg m.achievements 5 10
  have g1 := contrib_le m.internships 3 30 (by norm_num)
  have g2 := contrib_le m.projects 4 25 (by norm_num)
  have g3 := contrib_le m.certifications 5 20 (by norm_num)
  have g4 := contrib_le m.skills 20 15 (by norm_num)
  have g5 := contrib_le m.achievements 5 10 (by norm_num)
  norm_num at g1 g2 g3 g4 g5
  constructor <;> linarith

theorem total_score_bounds (m : Metrics) :
    0 ≤ (calculate_resume_score m).total_score ∧
      (calculate_resume_score m).total_score ≤ 100 := by
  obtain ⟨hs0, hs100⟩ := sumContrib_bounds m
  have h1 : (0 : ℤ) ≤ rhe (sumContrib m) := rhe_nonneg hs0
  have h2 : rhe (sumContrib m) ≤ (100 : ℤ) :=
    rhe_le (by exact_mod_cast hs100)
  have h3 : (0 : ℚ) ≤ ((rhe (sumContrib m) : ℤ) : ℚ) := by exact_mod_cast h1
  have h4 : ((rhe (sumContrib m) : ℤ) : ℚ) ≤ ((100 : ℤ) : ℚ) := by
    exact_mod_cast h2
  show 0 ≤ pyRound2 ((rhe (sumContrib m) : ℤ) : ℚ) ∧
    pyRound2 ((rhe (sumContrib m) : ℤ) : ℚ) ≤ 100
  constructor
  · exact pyRound2_nonneg h3
  · have h5 := pyRound2_le (B := (100 : ℤ)) h4
    calc pyRound2 ((rhe (sumContrib m) : ℤ) : ℚ)
        ≤ ((100 : ℤ) : ℚ) := h5
      _ = 100 := by norm_num

/-- Evaluation helper: a contribution whose inner value is an integer. -/
theorem contrib_eval (v maxv w : Nat) (z : ℤ)
    (h : ((min v maxv : Nat) : ℚ) / (maxv : ℚ) * (w : ℚ) = (z : ℚ)) :
    contrib v maxv w = (z : ℚ) := by
  unfold contrib
  rw [h, pyRound2_intCast]


/-! ## Claim theorems -/

/-- C1 (counterexample): the Score Normalizer does not divide each metric
by the counter ceilings (5, 8, 10, 30, 8) as the claim states; the code
divides by `max_values` (3, 4, 5, 20, 5).  At the metrics record
(1, 0, 0, 0, 0) the code's internships contribution is
`round(min(1,3)/3*30, 2) = 10.0`, while the claim's formula gives
`round(min(1,5)/5*30, 2) = 6.0`. -/
theorem C1_normalizer_counterexample :
    (calculate_resume_score ⟨1, 0, 0, 0, 0⟩).internships_score = 10 ∧
    (claimC1Normalize ⟨1, 0, 0, 0, 0⟩).internships_score = 6 ∧
    (calculate_resume_score ⟨1, 0, 0, 0, 0⟩).internships_score ≠
      (claimC1Normalize ⟨1, 0, 0, 0, 0⟩).internships_score := by
  have h1 : contrib 1 3 30 = ((10 : ℤ) : ℚ) :=
    contrib_eval 1 3 30 10
      (by rw [show (min (1 : ℕ) 3) = 1 from rfl]; norm_num)
  have h2 : contrib 1 5 30 = ((6 : ℤ) : ℚ) :=
    contrib_eval 1 5 30 6
      (by rw [show (min (1 : ℕ) 5) = 1 from rfl]; norm_num)
  refine ⟨?_, ?_, ?_⟩
  · show contrib 1 3 30 = (10 : ℚ)
    rw [h1]; norm_num
  · show contrib 1 5 30 = (6 : ℚ)
    rw [h2]; norm_num
  · show contrib 1 3 30 ≠ contrib 1 5 30
    rw [h1, h2]; norm_num

/-- C1 (amended): for every Metrics record the Score Normalizer computes
each metric's weighted contribution by capping the value at the
normalization ceiling of `max_values` (3 internships, 4 projects,
5 certifications, 20 skills, 5 achievements — not the counters' caps),
dividing by that same ceiling, multiplying by the weight
(30, 25, 20, 15, 10), rounded to 2 decimal places. -/
theorem C1_normalizer_amended (m : Metrics) :
    calculate_resume_score m = claimC1AmendedNormalize m := rfl

/-- C2: every counter output lies within its cap (5, 8, 10, 30, 8 — the
lower bound 0 is automatic because counts are natural numbers), and the
total score computed from any Metrics record within those bounds lies
within [0, 100]. -/
theorem C2_bounds (t : List Char) (m : Metrics)
    (h1 : m.internships ≤ 5) (h2 : m.projects ≤ 8)
    (h3 : m.certifications ≤ 10) (h4 : m.skills ≤ 30)
    (h5 : m.achievements ≤ 8) :
    count_internships t ≤ 5 ∧ count_projects t ≤ 8 ∧
    count_certifications t ≤ 10 ∧ count_skills t ≤ 30 ∧
    count_achievements t ≤ 8 ∧
    0 ≤ (calculate_resume_score m).total_score ∧
    (calculate_resume_score m).total_score ≤ 100 :=
  ⟨count_internships_le t, count_projects_le t, count_certifications_le t,
   count_skills_le t, count_achievements_le t, (total_score_bounds m).1,
   (total_score_bounds m).2⟩

theorem C2_bounds_witness :
    count_internships (str "x") ≤ 5 ∧ count_projects (str "x") ≤ 8 ∧
    count_certifications (str "x") ≤ 10 ∧ count_skills (str "x") ≤ 30 ∧
    count_achievements (str "x") ≤ 8 ∧
    0 ≤ (calculate_resume_score ⟨5, 8, 10, 30, 8⟩).total_score ∧
    (calculate_resume_score ⟨5, 8, 10, 30, 8⟩).total_score ≤ 100 :=
  C2_bounds (str "x") ⟨5, 8, 10, 30, 8⟩ (by decide) (by decide) (by decide)
    (by decide) (by decide)

/-- C3 (counterexample): candidates are tried in caller-supplied list
order, not document order.  In the text `"\nkey projects:\nAAA\nprojects:\nBBB"`
the candidate phrase "key projects" occurs first in the document (its
header match spans offsets 0–14), but the locator commits to the later
occurrence matched by the earlier-listed candidate "projects" (section
starting at offset 28). -/
theorem C3_locator_counterexample :
    find_section (str "\nkey projects:\nAAA\nprojects:\nBBB")
      project_headers = some (28, 3028) ∧
    research (headerRE (str "key projects"))
      (lower (str "\nkey projects:\nAAA\nprojects:\nBBB")) = some (0, 14) ∧
    (str "key projects") ∈ project_headers := by
  decide

/-- C3 (amended): the Section Locator tries candidate phrases in the
caller-supplied priority order; the first candidate that matches anywhere
wins at its leftmost occurrence (no earlier offset matches that
candidate's pattern), and a candidate that matches nowhere passes control
to the remaining candidates.  Document order decides only among
occurrences of the same candidate phrase. -/
theorem C3_locator_amended (t : List Char) (h : List Char)
    (hs : List (List Char)) :
    (research (headerRE h) (lower t) = none →
      find_section t (h :: hs) = find_section t hs) ∧
    (∀ p e, research (headerRE h) (lower t) = some (p, e) →
      find_section t (h :: hs) = some (e, sectionEnd (lower t) e) ∧
      ∀ q, q < p → mrun (lower t) (headerRE h) q = []) := by
  constructor
  · intro hn
    conv_lhs => unfold find_section
    rw [hn]
  · intro p e hp
    constructor
    · conv_lhs => unfold find_section
      rw [hp]
    · exact (research_spec hp).2

theorem C3_locator_witness :
    find_section (str "\nprojects:\nA\nprojects:\nB") project_headers =
      some (10, sectionEnd (lower (str "\nprojects:\nA\nprojects:\nB")) 10) ∧
    ∀ q, q < 0 → mrun (lower (str "\nprojects:\nA\nprojects:\nB"))
      (headerRE (str "projects")) q = [] :=
  (C3_locator_amended (str "\nprojects:\nA\nprojects:\nB") (str "projects")
    [str "personal projects", str "academic projects", str "key projects",
     str "technical projects", str "major projects", str "project work",
     str "project experience"]).2 0 10 (by decide)

/-- C4: the Signal Aggregator's median rule returns the element of the
sorted list of nonzero signals at index `len / 2` (stated via a sorted
permutation of the nonzero values), the max rule returns a maximum
element, and the spec's three examples hold: `[2,4,6] ↦ 4`,
`[0,0,5] ↦ 5`, and max-reconciled `[1,3,2] ↦ 3`. -/
theorem C4_aggregator :
    (∀ l : List Nat, (∃ x ∈ l, 0 < x) →
      ∃ s, List.Perm s (l.filter (fun i => 0 < i)) ∧
        List.Sorted (· ≤ ·) s ∧
        medianOfNonzero l = some (s.getD (s.length / 2) 0)) ∧
    (∀ (l : List Nat) (mx : Nat), pymax l = some mx →
      mx ∈ l ∧ ∀ y ∈ l, y ≤ mx) ∧
    medianOfNonzero [2, 4, 6] = some 4 ∧
    medianOfNonzero [0, 0, 5] = some 5 ∧
    pymax [1, 3, 2] = some 3 := by
  refine ⟨?_, ?_, by decide, by decide, by decide⟩
  · intro l hl
    exact ⟨sortedNonzero l, List.perm_insertionSort _ _,
      List.sorted_insertionSort _ _, medianOfNonzero_eq_some hl⟩
  · intro l mx h
    exact pymax_spec h

theorem C4_aggregator_witness :
    (∃ s, List.Perm s ([2, 4, 6].filter (fun i => 0 < i)) ∧
      List.Sorted (· ≤ ·) s ∧
      medianOfNonzero [2, 4, 6] = some (s.getD (s.length / 2) 0)) ∧
    (3 ∈ [1, 3, 2] ∧ ∀ y ∈ [1, 3, 2], y ≤ 3) :=
  ⟨C4_aggregator.1 [2, 4, 6] ⟨2, by decide, by decide⟩,
   C4_aggregator.2.1 [1, 3, 2] 3 (by decide)⟩

/-- C5 (counterexample): for the certifications counter an all-zero
signal vector does NOT trigger the global fallback.  In
`"\ntraining:\nabc\nskills:\nnptel"` the certifications section is found
(span 10–14), all five signals are zero, and the counter returns 0 —
while the fallback-mode result over the whole document would be 1
(the "nptel" mention). -/
theorem C5_fallback_counterexample :
    find_section (str "\ntraining:\nabc\nskills:\nnptel") cert_headers =
      some (10, 14) ∧
    certSignals (pySlice (lower (str "\ntraining:\nabc\nskills:\nnptel"))
      10 14) = [0, 0, 0, 0, 0] ∧
    count_certifications (str "\ntraining:\nabc\nskills:\nnptel") = 0 ∧
    min (max (faCount certFallbackRE
      (lower (str "\ntraining:\nabc\nskills:\nnptel"))) 0) 10 = 1 := by
  decide

/-- C5 (amended): when the section is found and every signal is zero, the
internships and projects counters fall through to their global fallback,
and the achievements counter consults its fallback whenever its combined
count is zero; the certifications counter, however, always returns
`min (max signals) 10` when its section is found — its signal list is
never empty, so an all-zero vector yields 0 without the fallback. -/
theorem C5_fallback_amended (t : List Char) :
    (∀ s e, find_section t exp_headers = some (s, e) →
      (∀ x ∈ internSignals (pySlice (lower t) s e) (pySlice t s e), x = 0) →
      count_internships t =
        min (max (faCount internFallbackRE (lower t)) 0) 5) ∧
    (∀ s e, find_section t project_headers = some (s, e) →
      (∀ x ∈ projSignals (pySlice (lower t) s e) (pySlice t s e), x = 0) →
      count_projects t =
        min (max (faCount projFallbackRE (lower t)) 0) 8) ∧
    (∀ s e c, find_section t cert_headers = some (s, e) →
      pymax (certSignals (pySlice (lower t) s e)) = some c →
      count_certifications t = min c 10) ∧
    (achBase t = 0 →
      count_achievements t =
        min (max (achBase t) (faCount certAsAchRE (lower t))) 8) := by
  refine ⟨?_, ?_, ?_, ?_⟩
  · intro s e hf hz
    unfold count_internships
    rw [hf]
    show (match medianOfNonzero (internSignals (pySlice (lower t) s e)
        (pySlice t s e)) with
      | some c => min c 5
      | none => min (max (faCount internFallbackRE (lower t)) 0) 5) =
      min (max (faCount internFallbackRE (lower t)) 0) 5
    rw [medianOfNonzero_eq_none hz]
  · intro s e hf hz
    unfold count_projects
    rw [hf]
    show (match medianOfNonzero (projSignals (pySlice (lower t) s e)
        (pySlice t s e)) with
      | some c => min (max c 1) 8
      | none => min (max (faCount projFallbackRE (lower t)) 0) 8) =
      min (max (faCount projFallbackRE (lower t)) 0) 8
    rw [medianOfNonzero_eq_none hz]
  · intro s e c hf hp
    unfold count_certifications
    rw [hf]
    show (match pymax (certSignals (pySlice (lower t) s e)) with
      | some c2 => min c2 10
      | none => min (max (faCount certFallbackRE (lower t)) 0) 10) =
      min c 10
    rw [hp]
  · intro h0
    unfold count_achievements
    rw [if_pos h0]

theorem C5_fallback_witness :
    count_certifications (str "\ntraining:\nabc") = min 0 10 :=
  (C5_fallback_amended (str "\ntraining:\nabc")).2.2.1 10 3010 0
    (by decide) (by decide)

/-- C6 (counterexample): a located projects section does not guarantee a
count of at least 1.  In `"\nprojects:\nxyz"` the section is found
(span 10–3010) but every signal is zero, so the counter falls through to
the global fallback, which returns 0. -/
theorem C6_projects_counterexample :
    find_section (str "\nprojects:\nxyz") project_headers =
      some (10, 3010) ∧
    count_projects (str "\nprojects:\nxyz") = 0 := by
  decide

/-- C6 (amended): if a projects section is located and at least one
signal is nonzero, the projects counter returns a count in [1, 8]; when
every signal is zero the counter instead runs its global fallback, which
may return 0. -/
theorem C6_projects_amended (t : List Char) (s e : Nat)
    (hf : find_section t project_headers = some (s, e))
    (hx : ∃ x ∈ projSignals (pySlice (lower t) s e) (pySlice t s e), 0 < x) :
    1 ≤ count_projects t ∧ count_projects t ≤ 8 := by
  unfold count_projects
  rw [hf]
  show 1 ≤ (match medianOfNonzero (projSignals (pySlice (lower t) s e)
        (pySlice t s e)) with
      | some c => min (max c 1) 8
      | none => min (max (faCount projFallbackRE (lower t)) 0) 8) ∧
    (match medianOfNonzero (projSignals (pySlice (lower t) s e)
        (pySlice t s e)) with
      | some c => min (max c 1) 8
      | none => min (max (faCount projFallbackRE (lower t)) 0) 8) ≤ 8
  rw [medianOfNonzero_eq_some hx]
  exact ⟨Nat.le_min.mpr ⟨Nat.le_max_right _ 1, by norm_num⟩,
    Nat.min_le_right _ _⟩

theorem C6_projects_witness :
    1 ≤ count_projects (str "\nprojects:\ngithub.com/x") ∧
    count_projects (str "\nprojects:\ngithub.com/x") ≤ 8 :=
  C6_projects_amended (str "\nprojects:\ngithub.com/x") 10 3010 (by decide)
    ⟨1, by decide, by decide⟩

/-- C7: the five weights 30, 25, 20, 15, 10 sum to exactly 100, and for
the Metrics record at every counter's cap (5, 8, 10, 30, 8) the computed
total score rounds to 100 (each field saturates its normalization
ceiling, so each contribution attains its full weight). -/
theorem C7_weight_conservation :
    weights.sum = 100 ∧
    (calculate_resume_score ⟨5, 8, 10, 30, 8⟩).total_score = 100 := by
  constructor
  · decide
  · have h1 : contrib 5 3 30 = ((30 : ℤ) : ℚ) :=
      contrib_eval 5 3 30 30
        (by rw [show (min (5 : ℕ) 3) = 3 from rfl]; norm_num)
    have h2 : contrib 8 4 25 = ((25 : ℤ) : ℚ) :=
      contrib_eval 8 4 25 25
        (by rw [show (min (8 : ℕ) 4) = 4 from rfl]; norm_num)
    have h3 : contrib 10 5 20 = ((20 : ℤ) : ℚ) :=
      contrib_eval 10 5 20 20
        (by rw [show (min (10 : ℕ) 5) = 5 from rfl]; norm_num)
    have h4 : contrib 30 20 15 = ((15 : ℤ) : ℚ) :=
      contrib_eval 30 20 15 15
        (by rw [show (min (30 : ℕ) 20) = 20 from rfl]; norm_num)
    have h5 : contrib 8 5 10 = ((10 : ℤ) : ℚ) :=
      contrib_eval 8 5 10 10
        (by rw [show (min (8 : ℕ) 5) = 5 from rfl]; norm_num)
    have hsum : sumContrib ⟨5, 8, 10, 30, 8⟩ = ((100 : ℤ) : ℚ) := by
      show contrib 5 3 30 + contrib 8 4 25 + contrib 10 5 20 +
        contrib 30 20 15 + contrib 8 5 10 = ((100 : ℤ) : ℚ)
      rw [h1, h2, h3, h4, h5]
      push_cast
      norm_num
    show pyRound2 ((rhe (sumContrib ⟨5, 8, 10, 30, 8⟩) : ℤ) : ℚ) = 100
    rw [hsum, rhe_intCast, pyRound2_intCast]
    norm_num

/-- C8: résumé analysis is all-or-nothing.  `parse_resume` is the
`try`-block `tryMetrics` applied to the five (total) counters; for any
fallible counters, a failure of any one of them makes the whole analysis
return `none` (the source's `None` after `except`), and a successful
analysis returns a complete five-field record whose every field comes
from the corresponding counter — never a subset. -/
theorem C8_all_or_nothing (ci cp cc cs ca : List Char → Option Nat)
    (t : List Char) :
    (parse_resume t = tryMetrics (fun u => some (count_internships u))
      (fun u => some (count_projects u))
      (fun u => some (count_certifications u))
      (fun u => some (count_skills u))
      (fun u => some (count_achievements u)) t) ∧
    ((ci t = none ∨ cp t = none ∨ cc t = none ∨ cs t = none ∨
        ca t = none) →
      tryMetrics ci cp cc cs ca t = none) ∧
    (∀ m, tryMetrics ci cp cc cs ca t = some m →
      ci t = some m.internships ∧ cp t = some m.projects ∧
      cc t = some m.certifications ∧ cs t = some m.skills ∧
      ca t = some m.achievements) := by
  refine ⟨rfl, ?_, ?_⟩
  · intro hor
    unfold tryMetrics
    split
    · rfl
    · cases hci : ci t <;> cases hcp : cp t <;> cases hcc : cc t <;>
        cases hcs : cs t <;> cases hca : ca t <;> simp_all
  · intro m hm
    unfold tryMetrics at hm
    split at hm
    · simp at hm
    · cases hci : ci t <;> cases hcp : cp t <;> cases hcc : cc t <;>
        cases hcs : cs t <;> cases hca : ca t <;>
        rw [hci, hcp, hcc, hcs, hca] at hm <;> simp_all
      obtain ⟨rfl⟩ := hm
      simp

theorem C8_all_or_nothing_witness :
    tryMetrics (fun _ => none) (fun _ => some 2) (fun _ => some 3)
      (fun _ => some 4) (fun _ => some 5) (str "x") = none ∧
    (some 1 : Option Nat) = some ((⟨1, 2, 3, 4, 5⟩ : Metrics).internships) :=
  ⟨(C8_all_or_nothing (fun _ => none) (fun _ => some 2) (fun _ => some 3)
      (fun _ => some 4) (fun _ => some 5) (str "x")).2.1 (Or.inl rfl),
   ((C8_all_or_nothing (fun _ => some 1) (fun _ => some 2)
      (fun _ => some 3) (fun _ => some 4) (fun _ => some 5)
      (str "x")).2.2 ⟨1, 2, 3, 4, 5⟩ (by decide)).1⟩

/-- C9 (counterexample): "no header and 'AWS Certified' exactly once"
does not pin the result to 1, because the global fallback pattern also
counts coursera/udemy/nptel/google-certified mentions.  In
`"coursera aws certified"` no certifications-section header candidate
matches, the substring "aws certified" occurs exactly once, yet the
counter returns 2. -/
theorem C9_cert_fallback_counterexample :
    find_section (str "coursera aws certified") cert_headers = none ∧
    faCount (lit (str "aws certified"))
      (lower (str "coursera aws certified")) = 1 ∧
    count_certifications (str "coursera aws certified") = 2 := by
  decide

/-- C9 (amended): if no certifications-section header candidate matches
and the global fallback pattern
`\b(coursera|udemy|nptel|aws\s+certified|google\s+certified)\b` has
exactly one match in the text (e.g. a single "AWS Certified" occurrence
and no other fallback keyword), the certifications counter returns
exactly 1, not zero. -/
theorem C9_cert_fallback_amended (t : List Char)
    (hf : find_section t cert_headers = none)
    (hc : faCount certFallbackRE (lower t) = 1) :
    count_certifications t = 1 := by
  unfold count_certifications
  rw [hf, hc]
  rfl

theorem C9_cert_fallback_witness :
    count_certifications (str "only aws certified here") = 1 :=
  C9_cert_fallback_amended (str "only aws certified here") (by decide)
    (by decide)

/-- C10: a recognized section header is always preceded by a newline
strictly before the section start (the header pattern begins with `\n`),
so a candidate phrase at character offset 0 of the text is never
recognized: `"projects:\nstuff"` yields not-found, while
`"skills:\nprojects:\nstuff"`, whose candidate occurs later preceded by a
newline, is found. -/
theorem C10_newline_required :
    (∀ (t : List Char) (hs : List (List Char)) (s e : Nat),
      find_section t hs = some (s, e) →
      ∃ p, p < s ∧ t.get? p = some '\n') ∧
    find_section (str "projects:\nstuff") project_headers = none ∧
    find_section (str "skills:\nprojects:\nstuff") project_headers =
      some (17, 3017) := by
  refine ⟨?_, by decide, by decide⟩
  intro t hs
  induction hs with
  | nil => intro s e h; simp [find_section] at h
  | cons hd rest ih =>
    intro s e h
    unfold find_section at h
    cases hr : research (headerRE hd) (lower t) with
    | none =>
      rw [hr] at h
      exact ih s e h
    | some pe =>
      obtain ⟨p, e1⟩ := pe
      rw [hr] at h
      simp only [Option.some.injEq, Prod.mk.injEq] at h
      obtain ⟨he1, _⟩ := h
      have hmem : e1 ∈ mrun (lower t) (headerRE hd) p := (research_spec hr).1
      unfold headerRE at hmem
      obtain ⟨hg, hpe⟩ := mrun_cat_chr hmem
      obtain ⟨d, hd2, hlow⟩ := get_lower hg
      have hdn : d = '\n' := lowC_eq_newline hlow
      rw [hdn] at hd2
      exact ⟨p, by omega, hd2⟩

theorem C10_newline_required_witness :
    ∃ p, p < 17 ∧ (str "skills:\nprojects:\nstuff").get? p = some '\n' :=
  C10_newline_required.1 (str "skills:\nprojects:\nstuff") project_headers
    17 3017 (by decide)
